import Mathlib

/-!
Verification development for the p3d mesh-processing pipeline (`src/lib.rs`,
entry point `p3d_process_n`).

Modelling conventions:
* `f64` scalars are embedded as the type `F` below: finite values are exact
  rationals, with explicit `nan`, `posinf`, `neginf` values following IEEE-754
  special-value propagation (any arithmetic operation with a `nan` operand
  yields `nan`; `0 * inf = nan`; `1 / 0 = +inf`, reading the unsigned model
  zero as `+0.0`).  Results that are irrational (square roots, sines and
  cosines of nonzero finite values, the constant pi) are modelled by the
  indeterminate value `unk`; no theorem below depends on
  the concrete value of an `unk` result.
* External library functions (the `obj`/`gltf` parsers, `MeshBuilder`,
  `tri_mesh` accessors, `principal_inertia_transform` and the slicing and
  contour routines of the crate's `algo_grid`/`contour` modules, which are not
  part of the sources under verification) are parameters of an `Env` record:
  theorems quantify over every possible behaviour of these collaborators.
* The four `find_top_std*` grid scorers live in the missing `algo_grid`
  module; they are modelled from the specification's Grid Scorer contract.
-/

namespace P3D

/-- IEEE-754-style scalar domain for `f64`.  `finite q` is the exact rational
value `q` (signed zeros are not distinguished; the model zero reads as
`+0.0`).  `unk` stands for a value this model does not determine (used for
irrational results such as `sqrt`, `sin`, `cos`, `pi`). -/
inductive F where
  | finite (q : ℚ)
  | posinf
  | neginf
  | nan
  | unk
deriving DecidableEq, Repr

/-- IEEE negation. -/
def negF : F → F
  | .finite q => .finite (-q)
  | .posinf => .neginf
  | .neginf => .posinf
  | .nan => .nan
  | .unk => .unk

/-- IEEE addition: `nan` absorbs, opposite infinities give `nan`,
finite values add exactly. -/
def addF : F → F → F
  | .nan, _ => .nan
  | _, .nan => .nan
  | .unk, _ => .unk
  | _, .unk => .unk
  | .finite a, .finite b => .finite (a + b)
  | .posinf, .neginf => .nan
  | .neginf, .posinf => .nan
  | .posinf, _ => .posinf
  | _, .posinf => .posinf
  | .neginf, _ => .neginf
  | _, .neginf => .neginf

/-- IEEE subtraction, as addition of the negation. -/
def subF (a b : F) : F := addF a (negF b)

/-- IEEE multiplication: `nan` absorbs, `0 * inf = nan`, finite values
multiply exactly. -/
def mulF : F → F → F
  | .nan, _ => .nan
  | _, .nan => .nan
  | .unk, _ => .unk
  | _, .unk => .unk
  | .finite a, .finite b => .finite (a * b)
  | .finite a, .posinf => if a = 0 then .nan else if 0 < a then .posinf else .neginf
  | .posinf, .finite a => if a = 0 then .nan else if 0 < a then .posinf else .neginf
  | .finite a, .neginf => if a = 0 then .nan else if 0 < a then .neginf else .posinf
  | .neginf, .finite a => if a = 0 then .nan else if 0 < a then .neginf else .posinf
  | .posinf, .posinf => .posinf
  | .posinf, .neginf => .neginf
  | .neginf, .posinf => .neginf
  | .neginf, .neginf => .posinf

/-- IEEE division: `nan` absorbs, `0/0 = nan`, `q/0 = ±inf` for nonzero
finite `q` (the model zero is `+0.0`), finite values divide exactly. -/
def divF : F → F → F
  | .nan, _ => .nan
  | _, .nan => .nan
  | .unk, _ => .unk
  | _, .unk => .unk
  | .finite a, .finite b =>
      if b = 0 then (if a = 0 then .nan else if 0 < a then .posinf else .neginf)
      else .finite (a / b)
  | .finite _, .posinf => .finite 0
  | .finite _, .neginf => .finite 0
  | .posinf, .finite b => if 0 ≤ b then .posinf else .neginf
  | .neginf, .finite b => if 0 ≤ b then .neginf else .posinf
  | .posinf, _ => .nan
  | .neginf, _ => .nan

/-- IEEE square root: exact on `0`, `nan` on negative arguments, and the
indeterminate `unk` on positive finite arguments (irrational in general). -/
def sqrtF : F → F
  | .nan => .nan
  | .unk => .unk
  | .posinf => .posinf
  | .neginf => .nan
  | .finite q => if q < 0 then .nan else if q = 0 then .finite 0 else .unk

/-- IEEE sine: `nan` on `nan`/infinite arguments, indeterminate otherwise. -/
def sinF : F → F
  | .nan => .nan
  | .posinf => .nan
  | .neginf => .nan
  | _ => .unk

/-- IEEE cosine: `nan` on `nan`/infinite arguments, indeterminate otherwise. -/
def cosF : F → F
  | .nan => .nan
  | .posinf => .nan
  | .neginf => .nan
  | _ => .unk

/-- The `f64` constant `pi`: irrational, hence indeterminate in this model. -/
def piF : F := .unk

/-- Boolean `<=` on scalars; comparisons involving `nan` (or the
indeterminate `unk`) are `false`, as IEEE comparisons on `nan` are. -/
def leF : F → F → Bool
  | .finite a, .finite b => decide (a ≤ b)
  | .finite _, .posinf => true
  | .neginf, .finite _ => true
  | .neginf, .posinf => true
  | .posinf, .posinf => true
  | .neginf, .neginf => true
  | _, _ => false

/-- Boolean `<` on scalars; comparisons involving `nan`/`unk` are `false`. -/
def ltF : F → F → Bool
  | .finite a, .finite b => decide (a < b)
  | .finite _, .posinf => true
  | .neginf, .finite _ => true
  | .neginf, .posinf => true
  | _, _ => false

/-- A 3-vector of scalars (`cgmath::Vector3<f64>` / `tri_mesh` point). -/
structure V3 where
  x : F
  y : F
  z : F
deriving DecidableEq, Repr

/-- A 2-D point (`cgmath::Point2<f64>`, the crate's `Vec2`). -/
structure V2p where
  x : F
  y : F
deriving DecidableEq, Repr

/-- Componentwise vector addition. -/
def addV3 (a b : V3) : V3 := ⟨addF a.x b.x, addF a.y b.y, addF a.z b.z⟩

/-- Vector-times-scalar, as in `cgmath`'s `Mul<S> for Vector3`. -/
def scaleV3 (v : V3) (s : F) : V3 := ⟨mulF v.x s, mulF v.y s, mulF v.z s⟩

/-- Dot product. -/
def dot3 (a b : V3) : F :=
  addF (addF (mulF a.x b.x) (mulF a.y b.y)) (mulF a.z b.z)

/-- Cross product. -/
def cross3 (a b : V3) : V3 :=
  ⟨subF (mulF a.y b.z) (mulF a.z b.y),
   subF (mulF a.z b.x) (mulF a.x b.z),
   subF (mulF a.x b.y) (mulF a.y b.x)⟩

/-- `cgmath::InnerSpace::normalize`: `v * (1 / sqrt (v . v))`.  On the zero
vector this is `0 * (1 / sqrt 0) = 0 * inf = nan` in every component. -/
def normalizeV3 (v : V3) : V3 :=
  scaleV3 v (divF (.finite 1) (sqrtF (dot3 v v)))

/-- A 3x3 matrix as three columns (`cgmath::Matrix3`, column-major). -/
structure Mat3 where
  cx : V3
  cy : V3
  cz : V3
deriving DecidableEq, Repr

/-- A homogeneous 4-vector. -/
structure V4 where
  x : F
  y : F
  z : F
  w : F
deriving DecidableEq, Repr

/-- A 4x4 matrix as four columns (`cgmath::Matrix4`, column-major). -/
structure Mat4 where
  c0 : V4
  c1 : V4
  c2 : V4
  c3 : V4
deriving DecidableEq, Repr

/-- `cgmath::Matrix3::determinant`: `(cx x cy) . cz`. -/
def det3 (m : Mat3) : F := dot3 (cross3 m.cx m.cy) m.cz

/-- `cgmath::SquareMatrix::invert` for `Matrix3`: `none` when the
determinant is zero, otherwise the adjugate scaled by `1/det`
(rows are the cross products of the column pairs). -/
def invert3 (m : Mat3) : Option Mat3 :=
  let det := det3 m
  if det = .finite 0 then none
  else
    let invDet := divF (.finite 1) det
    let r0 := scaleV3 (cross3 m.cy m.cz) invDet
    let r1 := scaleV3 (cross3 m.cz m.cx) invDet
    let r2 := scaleV3 (cross3 m.cx m.cy) invDet
    some ⟨⟨r0.x, r1.x, r2.x⟩, ⟨r0.y, r1.y, r2.y⟩, ⟨r0.z, r1.z, r2.z⟩⟩

/-- Apply a homogeneous 4x4 transform to a 3-D point with `w = 1` and drop
the `w` component, as `tri_mesh::Mesh::apply_transformation` does per
vertex position. -/
def applyMat4Point (t : Mat4) (p : V3) : V3 :=
  ⟨addF (addF (addF (mulF t.c0.x p.x) (mulF t.c1.x p.y)) (mulF t.c2.x p.z))
        (mulF t.c3.x (.finite 1)),
   addF (addF (addF (mulF t.c0.y p.x) (mulF t.c1.y p.y)) (mulF t.c2.y p.z))
        (mulF t.c3.y (.finite 1)),
   addF (addF (addF (mulF t.c0.z p.x) (mulF t.c1.z p.y)) (mulF t.c2.z p.z))
        (mulF t.c3.z (.finite 1))⟩

/-- Degrees to radians, `deg * (pi / 180)`, as `cgmath`'s `Deg -> Rad`
conversion. -/
def degToRad (d : F) : F := mulF d (divF piF (.finite 180))

/-- `cgmath::Matrix4::from_axis_angle` (column-major constructor), taking the
angle in degrees as at the `p3d_process_n` call site `Deg(...)`. -/
def fromAxisAngleDeg (axis : V3) (angleDeg : F) : Mat4 :=
  let r := degToRad angleDeg
  let s := sinF r
  let c := cosF r
  let t := subF (.finite 1) c
  ⟨⟨addF (mulF (mulF t axis.x) axis.x) c,
    addF (mulF (mulF t axis.x) axis.y) (mulF s axis.z),
    subF (mulF (mulF t axis.x) axis.z) (mulF s axis.y),
    .finite 0⟩,
   ⟨subF (mulF (mulF t axis.x) axis.y) (mulF s axis.z),
    addF (mulF (mulF t axis.y) axis.y) c,
    addF (mulF (mulF t axis.y) axis.z) (mulF s axis.x),
    .finite 0⟩,
   ⟨addF (mulF (mulF t axis.x) axis.z) (mulF s axis.y),
    subF (mulF (mulF t axis.y) axis.z) (mulF s axis.x),
    addF (mulF (mulF t axis.z) axis.z) c,
    .finite 0⟩,
   ⟨.finite 0, .finite 0, .finite 0, .finite 1⟩⟩

/-- The algorithm tag enumeration of `lib.rs` (`AlgoType`). -/
inductive AlgoType where
  | Grid2d
  | Grid2dV2
  | Grid2dV3
  | Grid2dV3a
  | Spectr
deriving DecidableEq, Repr

/-- The input format tag enumeration of `lib.rs` (`InputFileType`). -/
inductive InputFileType where
  | Obj
  | Gltf
  | Glb
deriving DecidableEq, Repr

/-- The error enumeration of `lib.rs` (`P3DError`).  The payloads of
`InvalidObject` and `MeshError` (foreign error values of the `obj` and
`tri_mesh` crates) are modelled by their rendered text. -/
inductive P3DError where
  | InvalidObject (e : String)
  | MeshError (e : String)
  | MathError
  | UnsupportedFileType
  | GltfError (msg : String)
deriving DecidableEq, Repr

/-- One glTF primitive as seen through `primitive.reader(..)`: the position
list delivered by `read_positions()` and the index list delivered by
`read_indices()` (an absent accessor is an empty list, which has the same
effect on the accumulation loop). -/
structure Primitive where
  positions : List V3
  indices : List Nat
deriving DecidableEq, Repr

/-- A glTF mesh is its list of primitives. -/
abbrev GMesh := List Primitive

/-- A parsed glTF document, reduced to what the loader loop of
`p3d_process_n` consumes: the meshes in document order. -/
abbrev Scene := List GMesh

/-- The `tri_mesh::Mesh` as the pipeline observes it: vertex positions and
triangular faces (index triples).  Connectivity details beyond this are
irrelevant to `p3d_process_n`. -/
structure Mesh where
  positions : List V3
  faces : List (Nat × Nat × Nat)
deriving DecidableEq, Repr

/-- A line segment of a cross-section, in the plane. -/
abbrev Seg := V2p × V2p

/-- The `contour::Rect` built from the XY bounding extents. -/
structure RectF where
  x1 : F
  x2 : F
  y1 : F
  y2 : F
deriving DecidableEq, Repr

/-- External collaborators of `p3d_process_n`, one field per foreign
function the entry point calls.  `from_slice` is `gltf::Gltf::from_slice`
(used identically by the Gltf and Glb branches), `load_obj` is the `obj`
crate's loader composed with the `f32 -> f64` vertex conversion of
`lib.rs`, `buildMesh` is `tri_mesh::MeshBuilder`, and
`principal_inertia_transform`, `intersect`, `intersect_2`, `get_contour`
are the functions of the crate's `algo_grid`/`contour` modules, composed
with the triangle-soup extraction for the first of these.  Theorems
quantify over all behaviours of these collaborators. -/
structure Env where
  from_slice : List Nat → Option Scene
  load_obj : List Nat → Except String (List V3 × List Nat)
  buildMesh : List V3 → List Nat → Except String Mesh
  principal_inertia_transform : Mesh → Fin 3 → Fin 4 → F
  intersect : Mesh → F → List Seg
  intersect_2 : Mesh → F → F → List Seg
  get_contour : List Seg → List V2p
  extreme_coordinates : Mesh → V3 × V3

/-- The inner loop of the glTF branch (`for primitive in mesh.primitives()`):
extend the accumulated positions and indices with the primitive's data, then
break as soon as both accumulators are non-empty. -/
def loadPrimsGltf : List Primitive → List V3 → List Nat → List V3 × List Nat
  | [], ps, is => (ps, is)
  | p :: rest, ps, is =>
    let ps2 := ps ++ p.positions
    let is2 := is ++ p.indices
    if ps2 ≠ [] ∧ is2 ≠ [] then (ps2, is2) else loadPrimsGltf rest ps2 is2

/-- The outer loop of the glTF branch (`for mesh in gltf_data.meshes()`):
run the primitive loop, then break as soon as both accumulators are
non-empty. -/
def loadMeshesGltf : Scene → List V3 → List Nat → List V3 × List Nat
  | [], ps, is => (ps, is)
  | m :: rest, ps, is =>
    let r := loadPrimsGltf m ps is
    if r.1 ≠ [] ∧ r.2 ≠ [] then r else loadMeshesGltf rest r.1 r.2

/-- The inner loop of the GLB branch of `p3d_process_n`; the GLB branch
repeats the glTF accumulation loop verbatim. -/
def loadPrimsGlb : List Primitive → List V3 → List Nat → List V3 × List Nat
  | [], ps, is => (ps, is)
  | p :: rest, ps, is =>
    let ps2 := ps ++ p.positions
    let is2 := is ++ p.indices
    if ps2 ≠ [] ∧ is2 ≠ [] then (ps2, is2) else loadPrimsGlb rest ps2 is2

/-- The outer loop of the GLB branch of `p3d_process_n`. -/
def loadMeshesGlb : Scene → List V3 → List Nat → List V3 × List Nat
  | [], ps, is => (ps, is)
  | m :: rest, ps, is =>
    let r := loadPrimsGlb m ps is
    if r.1 ≠ [] ∧ r.2 ≠ [] then r else loadMeshesGlb rest r.1 r.2

/-- The parse-failure message of the Gltf branch (the `format!` payload is
the foreign parser's debug text; the fixed prefix is what distinguishes the
branch). -/
def gltfParseMsg : String := "glTF parsing error"

/-- The parse-failure message of the Glb branch. -/
def glbParseMsg : String := "GLB parsing error"

/-- The no-geometry message of the Gltf branch of `p3d_process_n`. -/
def noGeomGltfMsg : String := "No valid geometry (vertices/indices) found in glTF file"

/-- The no-geometry message of the Glb branch of `p3d_process_n`. -/
def noGeomGlbMsg : String := "No valid geometry (vertices/indices) found in GLB file"

/-- The `InputFileType::Gltf` arm of `p3d_process_n`: parse, run the
accumulation loops, fail with the no-geometry message when either
accumulator ends empty. -/
def gltfBranch (env : Env) (input : List Nat) : Except P3DError (List V3 × List Nat) :=
  match env.from_slice input with
  | none => .error (.GltfError gltfParseMsg)
  | some scene =>
    let r := loadMeshesGltf scene [] []
    if r.1.isEmpty || r.2.isEmpty then .error (.GltfError noGeomGltfMsg)
    else .ok r

/-- The `InputFileType::Glb` arm of `p3d_process_n`. -/
def glbBranch (env : Env) (input : List Nat) : Except P3DError (List V3 × List Nat) :=
  match env.from_slice input with
  | none => .error (.GltfError glbParseMsg)
  | some scene =>
    let r := loadMeshesGlb scene [] []
    if r.1.isEmpty || r.2.isEmpty then .error (.GltfError noGeomGlbMsg)
    else .ok r

/-- The `match file_type` of `p3d_process_n`, producing the vertex and
index buffers handed to the mesh builder. -/
def extractGeometry (env : Env) (input : List Nat) :
    InputFileType → Except P3DError (List V3 × List Nat)
  | .Obj =>
    match env.load_obj input with
    | .error e => .error (.InvalidObject e)
    | .ok r => .ok r
  | .Gltf => gltfBranch env input
  | .Glb => glbBranch env input

/-- The 3x3 block `a` built by `p3d_process_n` from the principal-inertia
transform: `Matrix3::new(pit[[0,0]], pit[[0,1]], pit[[0,2]], pit[[1,0]],
...)`, with `Matrix3::new` taking its arguments column-major. -/
def mat3OfPit (pit : Fin 3 → Fin 4 → F) : Mat3 :=
  ⟨⟨pit 0 0, pit 0 1, pit 0 2⟩,
   ⟨pit 1 0, pit 1 1, pit 1 2⟩,
   ⟨pit 2 0, pit 2 1, pit 2 2⟩⟩

/-- The 4x4 transform `tr` built by `p3d_process_n` from the inverted block
`b`: `Matrix4::new(b.x[0], b.x[1], b.x[2], 0, b.y[0], ..., 0, 0, 0, 0, 1)`,
column-major. -/
def trOf (b : Mat3) : Mat4 :=
  ⟨⟨b.cx.x, b.cx.y, b.cx.z, .finite 0⟩,
   ⟨b.cy.x, b.cy.y, b.cy.z, .finite 0⟩,
   ⟨b.cz.x, b.cz.y, b.cz.z, .finite 0⟩,
   ⟨.finite 0, .finite 0, .finite 0, .finite 1⟩⟩

/-- `tri_mesh::Mesh::translate`: shift every vertex position. -/
def translateMesh (m : Mesh) (v : V3) : Mesh :=
  { m with positions := m.positions.map (fun p => addV3 p v) }

/-- `tri_mesh::Mesh::apply_transformation`: map every vertex position
through the homogeneous transform. -/
def applyTransformationMesh (m : Mesh) (t : Mat4) : Mesh :=
  { m with positions := m.positions.map (applyMat4Point t) }

/-- The quantization constant of `p3d_process_n`: `let k = 45.0 / 256.0`. -/
def kF : F := divF (.finite 45) (.finite 256)

/-- The axis vector handed to `normalize` when a packed auxiliary rotation
`[b0, b1, b2, b3]` is supplied: `(b0 * k, b1 * k, b2 * k)`. -/
def auxAxisArg (r : ℕ × ℕ × ℕ × ℕ) : V3 :=
  ⟨mulF (.finite r.1) kF, mulF (.finite r.2.1) kF, mulF (.finite r.2.2.1) kF⟩

/-- The rotation angle in degrees decoded from the fourth packed byte:
`b3 * k * 360.0 / 256.0`. -/
def auxAngleDeg (b3 : ℕ) : F :=
  divF (mulF (mulF (.finite b3) kF) (.finite 360)) (.finite 256)

/-- The `if let Some(rot) = trans` block of `p3d_process_n`: apply the
decoded quantized axis-angle rotation when present, do nothing when
absent. -/
def auxApply (trans : Option (ℕ × ℕ × ℕ × ℕ)) (m : Mesh) : Mesh :=
  match trans with
  | none => m
  | some r =>
    applyTransformationMesh m
      (fromAxisAngleDeg (normalizeV3 (auxAxisArg r)) (auxAngleDeg r.2.2.2))

/-- The level spacing of the slice loop:
`step = (v_max.z - v_min.z) / (1.0 + n_sections as f64)`. -/
def sliceStep (vminz vmaxz : F) (nsec : Int) : F :=
  divF (subF vmaxz vminz) (addF (.finite 1) (.finite (nsec : ℚ)))

/-- The slice height of section `n`:
`z_sect = v_min.z + (n as f64 + 1.0) * step`. -/
def sliceZ (vminz : F) (step : F) (n : ℕ) : F :=
  addF vminz (mulF (addF (.finite (n : ℚ)) (.finite 1)) step)

/-- The per-section intersection choice of `p3d_process_n`: the `Grid2dV3a`
variant intersects a tolerant slab of half-width `step * 0.01`, every other
variant intersects the exact plane. -/
def sectionOf (env : Env) (algo : AlgoType) (m : Mesh) (z step : F) : List Seg :=
  if algo = .Grid2dV3a then env.intersect_2 m z (mulF step (.finite (1 / 100)))
  else env.intersect m z

/-- The slice loop of `p3d_process_n`: for each of `n_sections` levels,
intersect, build the contour, and keep it only when non-empty (a negative
`n_sections` iterates zero times, as Rust's empty range does). -/
def centersOf (env : Env) (algo : AlgoType) (m : Mesh) (vminz vmaxz : F)
    (nsec : Int) : List (List V2p) :=
  let step := sliceStep vminz vmaxz nsec
  (List.range nsec.toNat).foldl
    (fun acc n =>
      let cntr := env.get_contour (sectionOf env algo m (sliceZ vminz step n) step)
      if cntr.length > 0 then acc ++ [cntr] else acc)
    []

/-- The left edge of grid column `i` over the bounding rectangle's X span,
for `gs` subdivisions per axis. -/
def cellLowX (rect : RectF) (gs : ℕ) (i : ℕ) : F :=
  addF rect.x1 (mulF (.finite (i : ℚ)) (divF (subF rect.x2 rect.x1) (.finite (gs : ℚ))))

/-- The bottom edge of grid row `j` over the bounding rectangle's Y span. -/
def cellLowY (rect : RectF) (gs : ℕ) (j : ℕ) : F :=
  addF rect.y1 (mulF (.finite (j : ℚ)) (divF (subF rect.y2 rect.y1) (.finite (gs : ℚ))))

/-- Whether a contour point falls in grid cell `(i, j)` (half-open cell
rectangle). -/
def inCell (rect : RectF) (gs : ℕ) (cell : ℕ × ℕ) (p : V2p) : Bool :=
  leF (cellLowX rect gs cell.1) p.x && ltF p.x (cellLowX rect gs (cell.1 + 1)) &&
  (leF (cellLowY rect gs cell.2) p.y && ltF p.y (cellLowY rect gs (cell.2 + 1)))

/-- Whether a contour touches grid cell `(i, j)`: some contour point falls
in the cell. -/
def cellHit (rect : RectF) (gs : ℕ) (cell : ℕ × ℕ) (c : List V2p) : Bool :=
  c.any (inCell rect gs cell)

/-- Modelled from the spec: the coverage statistic of the Grid Scorer
contract — how many of the supplied per-level contours touch the cell.  The
exact formula is left open by the spec; this concrete choice is
deterministic and monotone in the set of levels touching the cell, as the
spec requires. -/
def coverageCount (centers : List (List V2p)) (rect : RectF) (gs : ℕ)
    (cell : ℕ × ℕ) : ℕ :=
  (centers.filter (cellHit rect gs cell)).length

/-- All grid cells of a `gs x gs` candidate grid, row-major. -/
def allCells (gs : ℕ) : List (ℕ × ℕ) :=
  (List.range gs).flatMap (fun i => (List.range gs).map (fun j => (i, j)))

/-- The grid cells with nonzero coverage — the only cells a Grid Scorer
variant may return as candidates. -/
def eligibleCells (centers : List (List V2p)) (rect : RectF) (gs : ℕ) :
    List (ℕ × ℕ) :=
  (allCells gs).filter (fun cell => coverageCount centers rect gs cell != 0)

/-- Stable descending insertion by score. -/
def insertDesc (score : ℕ × ℕ → ℕ) (x : ℕ × ℕ) : List (ℕ × ℕ) → List (ℕ × ℕ)
  | [] => [x]
  | y :: ys => if score y < score x then x :: y :: ys else y :: insertDesc score x ys

/-- Deterministic descending sort by score (insertion sort, stable). -/
def sortDesc (score : ℕ × ℕ → ℕ) : List (ℕ × ℕ) → List (ℕ × ℕ)
  | [] => []
  | x :: xs => insertDesc score x (sortDesc score xs)

/-- Modelled from the spec: the shared core of the four Grid Scorer
variants — rank the cells of nonzero coverage best-first by the variant's
score, return at most `depth` of them, each rendered as a result string
(the result format is opaque to the core). -/
def findTopCore (centers : List (List V2p)) (rect : RectF) (gs depth : ℕ)
    (score : ℕ × ℕ → ℕ) : List String :=
  ((sortDesc score (eligibleCells centers rect gs)).take depth).map
    (fun cell => toString cell.1 ++ "," ++ toString cell.2)

/-- Modelled from the spec: the V1 (pooled) score — plain coverage, treating
all contours as one undifferentiated population. -/
def score1 (centers : List (List V2p)) (rect : RectF) (gs : ℕ)
    (cell : ℕ × ℕ) : ℕ :=
  coverageCount centers rect gs cell

/-- Modelled from the spec: the V2 (level-aware) score — levels weighted by
their (1-based) index rather than pooled. -/
def score2 (centers : List (List V2p)) (rect : RectF) (gs : ℕ)
    (cell : ℕ × ℕ) : ℕ :=
  ((centers.enum.filter (fun e => cellHit rect gs cell e.2)).map
    (fun e => e.1 + 1)).sum

/-- Modelled from the spec: the V3 (refined) score — the level-aware score
refined by an extra coverage term penalizing low-coverage cells. -/
def score3 (centers : List (List V2p)) (rect : RectF) (gs : ℕ)
    (cell : ℕ × ℕ) : ℕ :=
  2 * score2 centers rect gs cell + coverageCount centers rect gs cell

/-- Modelled from the spec: `algo_grid::find_top_std` (the V1 baseline
scorer; its `grid_size` parameter is the raw `i16`, cast inside). -/
def find_top_std (centers : List (List V2p)) (depth : ℕ) (grid_size : Int)
    (rect : RectF) : List String :=
  findTopCore centers rect grid_size.toNat depth
    (score1 centers rect grid_size.toNat)

/-- Modelled from the spec: `algo_grid::find_top_std_2` (the V2 level-aware
scorer). -/
def find_top_std_2 (centers : List (List V2p)) (depth n_sections grid_size : ℕ)
    (rect : RectF) : List String :=
  findTopCore centers rect grid_size depth (score2 centers rect grid_size)

/-- Modelled from the spec: `algo_grid::find_top_std_3` (the V3 refined
scorer). -/
def find_top_std_3 (centers : List (List V2p)) (depth n_sections grid_size : ℕ)
    (rect : RectF) : List String :=
  findTopCore centers rect grid_size depth (score3 centers rect grid_size)

/-- Modelled from the spec: `algo_grid::find_top_std_4` (the V3a scorer,
sharing V3's scoring contract; it differs upstream by being paired with the
tolerant slicer). -/
def find_top_std_4 (centers : List (List V2p)) (depth n_sections grid_size : ℕ)
    (rect : RectF) : List String :=
  findTopCore centers rect grid_size depth (score3 centers rect grid_size)

/-- The `match algo` scoring dispatch of `p3d_process_n` (lines 220-225):
V2, V3 and V3a go to their dedicated scorers; every other tag — `Grid2d`
and the reserved `Spectr` alike — falls to the baseline `find_top_std`. -/
def dispatchScore (algo : AlgoType) (centers : List (List V2p)) (depth : ℕ)
    (p1 p2 : Int) (rect : RectF) : List String :=
  match algo with
  | .Grid2dV2 => find_top_std_2 centers depth p2.toNat p1.toNat rect
  | .Grid2dV3 => find_top_std_3 centers depth p2.toNat p1.toNat rect
  | .Grid2dV3a => find_top_std_4 centers depth p2.toNat p1.toNat rect
  | _ => find_top_std centers depth p1 rect

/-- `p3d_process_n` up to the accumulated contours and bounding rectangle:
geometry extraction, mesh construction, principal alignment (failing with
`MathError` on a singular rotation block), optional auxiliary rotation,
extents, and the slice loop. -/
def p3dCtx (env : Env) (input : List Nat) (ft : InputFileType)
    (algo : AlgoType) (p1 p2 : Int) (trans : Option (ℕ × ℕ × ℕ × ℕ)) :
    Except P3DError (List (List V2p) × RectF) :=
  match extractGeometry env input ft with
  | .error e => .error e
  | .ok g =>
    match env.buildMesh g.1 g.2 with
    | .error e => .error (.MeshError e)
    | .ok mesh0 =>
      let pit := env.principal_inertia_transform mesh0
      match invert3 (mat3OfPit pit) with
      | none => .error .MathError
      | some b =>
        let shift : V3 := ⟨pit 0 3, pit 1 3, pit 2 3⟩
        let mesh3 := auxApply trans (applyTransformationMesh (translateMesh mesh0 shift) (trOf b))
        let ve := env.extreme_coordinates mesh3
        let centers := centersOf env algo mesh3 ve.1.z ve.2.z p2
        .ok (centers, RectF.mk ve.1.x ve.2.x ve.1.y ve.2.y)

/-- The entry point `p3d_process_n`: the pipeline context followed by the
scoring dispatch.  `p1` is `grid_size`, `p2` is `n_sections`. -/
def p3d_process_n (env : Env) (input : List Nat) (ft : InputFileType)
    (algo : AlgoType) (depth : ℕ) (p1 p2 : Int)
    (trans : Option (ℕ × ℕ × ℕ × ℕ)) : Except P3DError (List String) :=
  match p3dCtx env input ft algo p1 p2 trans with
  | .error e => .error e
  | .ok c => .ok (dispatchScore algo c.1 depth p1 p2 c.2)

/-- The convenience wrapper `p3d_process`, fixing `depth = 10`. -/
def p3d_process (env : Env) (input : List Nat) (ft : InputFileType)
    (algo : AlgoType) (p1 p2 : Int) (trans : Option (ℕ × ℕ × ℕ × ℕ)) :
    Except P3DError (List String) :=
  p3d_process_n env input ft algo 10 p1 p2 trans

/-- A one-triangle test scene: a single mesh with a single primitive holding
three vertex positions and one index triple. -/
def scene0 : Scene :=
  [[⟨[⟨.finite 0, .finite 0, .finite 0⟩, ⟨.finite 1, .finite 0, .finite 0⟩,
      ⟨.finite 0, .finite 1, .finite 0⟩], [0, 1, 2]⟩]]

/-- A concrete collaborator instantiation on which every pipeline stage
succeeds: the parser yields `scene0`, the mesh builder accepts the buffers,
the principal-inertia transform is the identity (hence invertible), slices
are empty, contours are a single point at the origin, and the extents are
the unit cube. -/
def env0 : Env where
  from_slice := fun _ => some scene0
  load_obj := fun _ => .error "unsupported"
  buildMesh := fun ps _ => .ok ⟨ps, [(0, 1, 2)]⟩
  principal_inertia_transform := fun _ r c =>
    if (r : ℕ) = (c : ℕ) then .finite 1 else .finite 0
  intersect := fun _ _ => []
  intersect_2 := fun _ _ _ => []
  get_contour := fun _ => [⟨.finite 0, .finite 0⟩]
  extreme_coordinates := fun _ =>
    (⟨.finite 0, .finite 0, .finite 0⟩, ⟨.finite 1, .finite 1, .finite 1⟩)

/-- The all-`nan` rotation matrix produced by `from_axis_angle` on a `nan`
axis: every rotation entry contains an axis factor, so `nan` propagates to
the whole 3x3 block while the translation column stays `(0, 0, 0, 1)`. -/
def nanRotMat : Mat4 :=
  ⟨⟨.nan, .nan, .nan, .finite 0⟩, ⟨.nan, .nan, .nan, .finite 0⟩,
   ⟨.nan, .nan, .nan, .finite 0⟩, ⟨.finite 0, .finite 0, .finite 0, .finite 1⟩⟩

/-- The geometry buffers `env0` extracts from `scene0`. -/
def gEx : List V3 × List Nat :=
  ([⟨.finite 0, .finite 0, .finite 0⟩, ⟨.finite 1, .finite 0, .finite 0⟩,
    ⟨.finite 0, .finite 1, .finite 0⟩], [0, 1, 2])

/-- The mesh `env0`'s builder produces from `gEx`. -/
def meshEx : Mesh := ⟨gEx.1, [(0, 1, 2)]⟩

/-- `env0` with a parser that yields a well-formed document containing no
meshes at all. -/
def envEmpty : Env := { env0 with from_slice := fun _ => some [] }

/-- `env0` with a principal-inertia transform whose rotation block is the
zero matrix — singular, hence non-invertible. -/
def envSing : Env :=
  { env0 with principal_inertia_transform := fun _ _ _ => .finite 0 }

/-- A sample vertex position. -/
def pA : V3 := ⟨.finite 1, .finite 2, .finite 3⟩

/-- Another sample vertex position. -/
def pB : V3 := ⟨.finite 4, .finite 5, .finite 6⟩

/-- A scene whose first primitive carries only positions and whose second
primitive carries both positions and indices. -/
def sceneMix : Scene := [[⟨[pA], []⟩, ⟨[pB], [0]⟩]]

/-- `env0` with a parser that yields `sceneMix`. -/
def envMix : Env := { env0 with from_slice := fun _ => some sceneMix }

/-- The specification's reading of the loader contract: select the first
primitive (in mesh-then-primitive order) that itself yields both non-empty
positions and non-empty indices, and hand over exactly that primitive's
geometry. -/
def selectFirstGeometry (s : Scene) : Option (List V3 × List Nat) :=
  (s.flatten.find? (fun p => !p.positions.isEmpty && !p.indices.isEmpty)).map
    (fun p => (p.positions, p.indices))

/-- The accumulation loop of the glTF/GLB branches re-expressed over the
flattened primitive list (mesh-then-primitive order); the nested loops of
`p3d_process_n` are proved equal to this single recursion below. -/
def loadFlat : List Primitive → List V3 → List Nat → List V3 × List Nat
  | [], ps, is => (ps, is)
  | p :: rest, ps, is =>
    let ps2 := ps ++ p.positions
    let is2 := is ++ p.indices
    if ps2 ≠ [] ∧ is2 ≠ [] then (ps2, is2) else loadFlat rest ps2 is2

/-- All vertex positions of a scene, in traversal order. -/
def allPositions (s : Scene) : List V3 :=
  s.flatten.flatMap Primitive.positions

/-- All indices of a scene, in traversal order. -/
def allIndices (s : Scene) : List Nat :=
  s.flatten.flatMap Primitive.indices

/-- The constructor shape of a `P3DError`, forgetting message payloads. -/
inductive ErrShape where
  | invalidObject
  | meshFail
  | mathFail
  | unsupportedFile
  | gltfFail
deriving DecidableEq, Repr

/-- Forget a `P3DError`'s message payload. -/
def shapeOf : P3DError → ErrShape
  | .InvalidObject _ => .invalidObject
  | .MeshError _ => .meshFail
  | .MathError => .mathFail
  | .UnsupportedFileType => .unsupportedFile
  | .GltfError _ => .gltfFail

/-- Two pipeline results agree up to error-message text: equal on success,
same error shape on failure, and never one of each. -/
def resultAgrees : Except P3DError (List String) → Except P3DError (List String) → Prop
  | .ok a, .ok b => a = b
  | .error e1, .error e2 => shapeOf e1 = shapeOf e2
  | _, _ => False

/-- The quantization constant evaluates to the exact rational `45/256`. -/
lemma kF_eq : kF = .finite (45 / 256) := by with_unfolding_all rfl

/-- The axis argument decodes componentwise to `45/256` times the byte. -/
lemma auxAxisArg_eq (b0 b1 b2 b3 : ℕ) :
    auxAxisArg (b0, b1, b2, b3)
      = ⟨.finite ((45 / 256) * b0), .finite ((45 / 256) * b1),
         .finite ((45 / 256) * b2)⟩ := by
  show V3.mk (mulF (.finite (b0 : ℚ)) kF) (mulF (.finite (b1 : ℚ)) kF)
    (mulF (.finite (b2 : ℚ)) kF) = _
  rw [kF_eq]
  simp only [mulF, V3.mk.injEq, F.finite.injEq]
  refine ⟨by ring, by ring, by ring⟩

/-- The decoded angle evaluates to `b3 * (45/256) * (360/256)` degrees. -/
lemma auxAngleDeg_eq (b3 : ℕ) :
    auxAngleDeg b3 = .finite ((b3 : ℚ) * (45 / 256) * (360 / 256)) := by
  show divF (mulF (mulF (.finite (b3 : ℚ)) kF) (.finite 360)) (.finite 256) = _
  rw [kF_eq]
  simp only [mulF, divF]
  norm_num
  ring

/-- Normalizing the zero vector yields `nan` in every component:
`0 * (1 / sqrt 0) = 0 * inf = nan`. -/
lemma normalize_zero_nan :
    normalizeV3 ⟨.finite 0, .finite 0, .finite 0⟩ = ⟨.nan, .nan, .nan⟩ := by
  with_unfolding_all rfl

/-- `from_axis_angle` on an all-`nan` axis and a finite angle is the
all-`nan` rotation. -/
lemma fromAxisAngle_nan_axis (q : ℚ) :
    fromAxisAngleDeg ⟨.nan, .nan, .nan⟩ (.finite q) = nanRotMat := rfl

/-- The all-`nan` rotation maps every point to all-`nan` coordinates. -/
lemma applyMat4Point_nanRot (p : V3) :
    applyMat4Point nanRotMat p = ⟨.nan, .nan, .nan⟩ := by
  simp only [applyMat4Point, nanRotMat, mulF, addF]

/-- C1, counterexample: with every stage succeeding, requesting the reserved
`Spectr` algorithm tag does not produce any failure — the run succeeds and
returns exactly what the `Grid2d` baseline returns, because the scoring
dispatch sends `Spectr` to the default `find_top_std` arm.  (The code's
`P3DError` type has no `UnsupportedVariant` constructor at all.) -/
theorem c1_counterexample :
    p3d_process_n env0 [] .Gltf .Spectr 10 2 2 none = .ok ["0,0"] ∧
    p3d_process_n env0 [] .Gltf .Spectr 10 2 2 none
      = p3d_process_n env0 [] .Gltf .Grid2d 10 2 2 none :=
  ⟨by with_unfolding_all rfl, rfl⟩

/-- C1, amended: for every input, collaborator behaviour and parameter
choice, running `p3d_process_n` with the reserved `Spectr` tag behaves
identically to running it with `Grid2d`: the tag is silently aliased to the
baseline scoring strategy and never yields a dedicated failure. -/
theorem c1_spectr_aliased :
    ∀ (env : Env) (input : List Nat) (ft : InputFileType) (depth : ℕ)
      (p1 p2 : Int) (trans : Option (ℕ × ℕ × ℕ × ℕ)),
      p3d_process_n env input ft .Spectr depth p1 p2 trans
        = p3d_process_n env input ft .Grid2d depth p1 p2 trans :=
  fun _ _ _ _ _ _ _ => rfl

/-- C5: the `Grid2dV3a` variant intersects the tolerant slab with half-width
`step * 0.01` (one percent of the level spacing) while every other variant
intersects the exact single plane; and the scoring dispatch pairs
`Grid2dV3a` with the fourth scoring function `find_top_std_4`. -/
theorem c5_v3a_tolerant_pairing :
    ∀ (env : Env) (m : Mesh) (z step : F) (centers : List (List V2p))
      (depth : ℕ) (p1 p2 : Int) (rect : RectF),
      sectionOf env .Grid2dV3a m z step
        = env.intersect_2 m z (mulF step (divF (.finite 1) (.finite 100))) ∧
      sectionOf env .Grid2d m z step = env.intersect m z ∧
      sectionOf env .Grid2dV2 m z step = env.intersect m z ∧
      sectionOf env .Grid2dV3 m z step = env.intersect m z ∧
      sectionOf env .Spectr m z step = env.intersect m z ∧
      dispatchScore .Grid2dV3a centers depth p1 p2 rect
        = find_top_std_4 centers depth p2.toNat p1.toNat rect :=
  fun _ _ _ _ _ _ _ _ _ =>
    ⟨by with_unfolding_all rfl, rfl, rfl, rfl, rfl, rfl⟩

/-- C7: a supplied packed auxiliary rotation `[b0, b1, b2, b3]` decodes to
the axis argument `(b0 * 45/256, b1 * 45/256, b2 * 45/256)` handed to
normalization (a scalar multiple of `(b0, b1, b2)`), and to the rotation
angle `b3 * (45/256) * (360/256)` in degrees; an absent option applies no
auxiliary rotation at all, and a present one applies exactly the rotation
built from these decoded values. -/
theorem c7_aux_rotation_decode :
    ∀ (b0 b1 b2 b3 : ℕ) (m : Mesh),
      auxAxisArg (b0, b1, b2, b3)
        = ⟨.finite ((45 / 256) * b0), .finite ((45 / 256) * b1),
           .finite ((45 / 256) * b2)⟩ ∧
      auxAngleDeg b3 = .finite ((b3 : ℚ) * (45 / 256) * (360 / 256)) ∧
      auxApply none m = m ∧
      auxApply (some (b0, b1, b2, b3)) m
        = applyTransformationMesh m
            (fromAxisAngleDeg (normalizeV3 (auxAxisArg (b0, b1, b2, b3)))
              (auxAngleDeg b3)) :=
  fun b0 b1 b2 b3 m => ⟨auxAxisArg_eq b0 b1 b2 b3, auxAngleDeg_eq b3, rfl, rfl⟩

/-- C9: a supplied auxiliary rotation with a zero axis `[0, 0, 0, b3]` hands
the zero vector to normalization, which produces `nan` in every axis
component; the resulting rotation matrix maps every vertex position to
all-`nan` coordinates, and the pipeline still returns `Ok` — the corrupted
geometry flows on instead of a typed error. -/
theorem c9_zero_axis_nan :
    ∀ (b3 : ℕ) (env : Env) (input : List Nat) (ft : InputFileType)
      (algo : AlgoType) (depth : ℕ) (p1 p2 : Int) (m : Mesh)
      (g : List V3 × List Nat) (mm : Mesh),
      auxAxisArg (0, 0, 0, b3) = ⟨.finite 0, .finite 0, .finite 0⟩ ∧
      normalizeV3 ⟨.finite 0, .finite 0, .finite 0⟩ = ⟨.nan, .nan, .nan⟩ ∧
      (auxApply (some (0, 0, 0, b3)) m).positions
        = m.positions.map (fun _ => (⟨.nan, .nan, .nan⟩ : V3)) ∧
      (extractGeometry env input ft = .ok g →
       env.buildMesh g.1 g.2 = .ok mm →
       invert3 (mat3OfPit (env.principal_inertia_transform mm)) ≠ none →
       ∃ r, p3d_process_n env input ft algo depth p1 p2 (some (0, 0, 0, b3))
              = .ok r) := by
  intro b3 env input ft algo depth p1 p2 m g mm
  have hz : ((45 : ℚ) / 256) * ((0 : ℕ) : ℚ) = 0 := by norm_num
  refine ⟨?_, normalize_zero_nan, ?_, ?_⟩
  · rw [auxAxisArg_eq, hz]
  · show (applyTransformationMesh m
      (fromAxisAngleDeg (normalizeV3 (auxAxisArg (0, 0, 0, b3)))
        (auxAngleDeg b3))).positions = _
    rw [auxAxisArg_eq, hz, normalize_zero_nan, auxAngleDeg_eq,
        fromAxisAngle_nan_axis]
    show m.positions.map (applyMat4Point nanRotMat) = _
    rw [show applyMat4Point nanRotMat = (fun _ => (⟨.nan, .nan, .nan⟩ : V3))
          from funext applyMat4Point_nanRot]
  · intro h1 h2 h3
    obtain ⟨b, hb⟩ := Option.ne_none_iff_exists'.mp h3
    cases hc : p3dCtx env input ft algo p1 p2 (some (0, 0, 0, b3)) with
    | error e => simp [p3dCtx, h1, h2, hb] at hc
    | ok c =>
      exact ⟨dispatchScore algo c.1 depth p1 p2 c.2, by simp [p3d_process_n, hc]⟩

/-- C2: the slice heights used by the pipeline's slice loop are exactly
`z_min + (i+1) * (z_max - z_min) / (N+1)` for `i` below `N = n_sections`,
and (for a mesh of positive vertical extent) each level lies strictly
between `z_min` and `z_max`. -/
theorem c2_slice_levels :
    ∀ (zmin zmax : ℚ) (N i : ℕ), zmin < zmax → i < N →
      sliceZ (.finite zmin) (sliceStep (.finite zmin) (.finite zmax) (N : Int)) i
        = .finite (zmin + ((i : ℚ) + 1) * (zmax - zmin) / ((N : ℚ) + 1)) ∧
      zmin < zmin + ((i : ℚ) + 1) * (zmax - zmin) / ((N : ℚ) + 1) ∧
      zmin + ((i : ℚ) + 1) * (zmax - zmin) / ((N : ℚ) + 1) < zmax := by
  intro zmin zmax N i h hi
  have hN1 : (0 : ℚ) < (N : ℚ) + 1 := by positivity
  have hd : 0 < zmax - zmin := sub_pos.mpr h
  have hi1 : (0 : ℚ) < (i : ℚ) + 1 := by positivity
  refine ⟨?_, ?_, ?_⟩
  · have hne : (1 : ℚ) + (((N : Int) : ℤ) : ℚ) ≠ 0 := by
      push_cast
      positivity
    show addF (.finite zmin)
      (mulF (addF (.finite (i : ℚ)) (.finite 1))
        (divF (subF (.finite zmax) (.finite zmin))
          (addF (.finite 1) (.finite (((N : Int) : ℤ) : ℚ))))) = _
    simp only [subF, negF, addF, mulF, divF]
    rw [if_neg hne]
    simp only [addF, mulF, F.finite.injEq]
    push_cast
    ring
  · have hpos : 0 < ((i : ℚ) + 1) * (zmax - zmin) / ((N : ℚ) + 1) :=
      div_pos (mul_pos hi1 hd) hN1
    linarith
  · have hlt : ((i : ℚ) + 1) < (N : ℚ) + 1 := by
      exact_mod_cast Nat.succ_lt_succ hi
    have : ((i : ℚ) + 1) * (zmax - zmin) / ((N : ℚ) + 1) < zmax - zmin := by
      rw [div_lt_iff₀ hN1]
      nlinarith
    linarith

/-- C2, witness: at `z_min = 0`, `z_max = 10`, `N = 4`, `i = 1` the slice
level equals `4`, strictly between the extents. -/
theorem c2_slice_levels_witness :
    sliceZ (.finite 0) (sliceStep (.finite 0) (.finite 10) ((4 : ℕ) : Int)) 1
      = .finite (0 + ((1 : ℚ) + 1) * (10 - 0) / (((4 : ℕ) : ℚ) + 1)) ∧
    (0 : ℚ) < 0 + ((1 : ℚ) + 1) * (10 - 0) / (((4 : ℕ) : ℚ) + 1) ∧
    (0 : ℚ) + ((1 : ℚ) + 1) * (10 - 0) / (((4 : ℕ) : ℚ) + 1) < 10 :=
  c2_slice_levels 0 10 4 1 (by norm_num) (by norm_num)

/-- The primitive loop leaves the empty accumulators untouched when every
primitive carries neither positions nor indices. -/
lemma loadPrimsGltf_all_empty :
    ∀ (l : List Primitive), (∀ p ∈ l, p.positions = [] ∧ p.indices = []) →
      loadPrimsGltf l [] [] = ([], []) := by
  intro l
  induction l with
  | nil => intro _; rfl
  | cons p rest ih =>
    intro h
    have hp := h p (List.mem_cons_self p rest)
    simp only [loadPrimsGltf, hp.1, hp.2, List.append_nil]
    simp only [ne_eq, not_true_eq_false, false_and, if_false]
    exact ih (fun q hq => h q (List.mem_cons_of_mem p hq))

/-- The mesh loop leaves the empty accumulators untouched when every
primitive of every mesh is empty. -/
lemma loadMeshesGltf_all_empty :
    ∀ (s : Scene), (∀ gm ∈ s, ∀ p ∈ gm, p.positions = [] ∧ p.indices = []) →
      loadMeshesGltf s [] [] = ([], []) := by
  intro s
  induction s with
  | nil => intro _; rfl
  | cons gm rest ih =>
    intro h
    have hm := loadPrimsGltf_all_empty gm (h gm (List.mem_cons_self gm rest))
    simp only [loadMeshesGltf, hm]
    simp only [ne_eq, not_true_eq_false, false_and, if_false]
    exact ih (fun g hg => h g (List.mem_cons_of_mem gm hg))

/-- The GLB primitive loop leaves the empty accumulators untouched when
every primitive carries neither positions nor indices. -/
lemma loadPrimsGlb_all_empty :
    ∀ (l : List Primitive), (∀ p ∈ l, p.positions = [] ∧ p.indices = []) →
      loadPrimsGlb l [] [] = ([], []) := by
  intro l
  induction l with
  | nil => intro _; rfl
  | cons p rest ih =>
    intro h
    have hp := h p (List.mem_cons_self p rest)
    simp only [loadPrimsGlb, hp.1, hp.2, List.append_nil]
    simp only [ne_eq, not_true_eq_false, false_and, if_false]
    exact ih (fun q hq => h q (List.mem_cons_of_mem p hq))

/-- The GLB mesh loop leaves the empty accumulators untouched when every
primitive of every mesh is empty. -/
lemma loadMeshesGlb_all_empty :
    ∀ (s : Scene), (∀ gm ∈ s, ∀ p ∈ gm, p.positions = [] ∧ p.indices = []) →
      loadMeshesGlb s [] [] = ([], []) := by
  intro s
  induction s with
  | nil => intro _; rfl
  | cons gm rest ih =>
    intro h
    have hm := loadPrimsGlb_all_empty gm (h gm (List.mem_cons_self gm rest))
    simp only [loadMeshesGlb, hm]
    simp only [ne_eq, not_true_eq_false, false_and, if_false]
    exact ih (fun g hg => h g (List.mem_cons_of_mem gm hg))

/-- C3: a well-formed glTF/GLB document whose meshes and primitives carry
no geometry makes `p3d_process_n` fail — under the `Gltf` tag and under the
`Glb` tag alike — with the `GltfError` no-geometry failure of the
respective branch, and each branch's message begins with the explicit
"No valid geometry" marker. -/
theorem c3_empty_geometry :
    ∀ (env : Env) (input : List Nat) (algo : AlgoType) (depth : ℕ)
      (p1 p2 : Int) (trans : Option (ℕ × ℕ × ℕ × ℕ)) (scene : Scene),
      env.from_slice input = some scene →
      (∀ gm ∈ scene, ∀ p ∈ gm, p.positions = [] ∧ p.indices = []) →
      p3d_process_n env input .Gltf algo depth p1 p2 trans
        = .error (.GltfError noGeomGltfMsg) ∧
      p3d_process_n env input .Glb algo depth p1 p2 trans
        = .error (.GltfError noGeomGlbMsg) ∧
      (∃ t, noGeomGltfMsg.data = "No valid geometry".data ++ t) ∧
      (∃ t, noGeomGlbMsg.data = "No valid geometry".data ++ t) := by
  intro env input algo depth p1 p2 trans scene hparse hempty
  refine ⟨?_, ?_, ?_, ?_⟩
  · have hload := loadMeshesGltf_all_empty scene hempty
    simp [p3d_process_n, p3dCtx, extractGeometry, gltfBranch, hparse, hload]
  · have hload := loadMeshesGlb_all_empty scene hempty
    simp [p3d_process_n, p3dCtx, extractGeometry, glbBranch, hparse, hload]
  · exact ⟨" (vertices/indices) found in glTF file".data, rfl⟩
  · exact ⟨" (vertices/indices) found in GLB file".data, rfl⟩

/-- C3, witness: the empty-scene document is rejected with the no-geometry
failure under both container tags. -/
theorem c3_empty_geometry_witness :
    p3d_process_n envEmpty [] .Gltf .Grid2d 10 2 2 none
      = .error (.GltfError noGeomGltfMsg) ∧
    p3d_process_n envEmpty [] .Glb .Grid2d 10 2 2 none
      = .error (.GltfError noGeomGlbMsg) ∧
    (∃ t, noGeomGltfMsg.data = "No valid geometry".data ++ t) ∧
    (∃ t, noGeomGlbMsg.data = "No valid geometry".data ++ t) :=
  c3_empty_geometry envEmpty [] .Grid2d 10 2 2 none [] rfl (by simp)

/-- C4: whenever the principal-axis rotation block extracted from the
inertia transform is singular (zero determinant), `p3d_process_n` fails
with `MathError` — for every behaviour of the downstream slicing, contour
and scoring collaborators, so no degraded result is ever produced. -/
theorem c4_singular_math_error :
    ∀ (env : Env) (input : List Nat) (ft : InputFileType) (algo : AlgoType)
      (depth : ℕ) (p1 p2 : Int) (trans : Option (ℕ × ℕ × ℕ × ℕ))
      (g : List V3 × List Nat) (m : Mesh),
      extractGeometry env input ft = .ok g →
      env.buildMesh g.1 g.2 = .ok m →
      det3 (mat3OfPit (env.principal_inertia_transform m)) = .finite 0 →
      p3d_process_n env input ft algo depth p1 p2 trans = .error .MathError := by
  intro env input ft algo depth p1 p2 trans g m h1 h2 h3
  simp [p3d_process_n, p3dCtx, h1, h2, invert3, h3]

/-- C4, witness: with the zero inertia transform the pipeline stops at
`MathError` on a concrete input that parses and builds successfully. -/
theorem c4_singular_math_error_witness :
    extractGeometry envSing [] .Gltf = .ok gEx ∧
    envSing.buildMesh gEx.1 gEx.2 = .ok meshEx ∧
    det3 (mat3OfPit (envSing.principal_inertia_transform meshEx)) = .finite 0 ∧
    p3d_process_n envSing [] .Gltf .Grid2d 10 2 2 none = .error .MathError :=
  ⟨by with_unfolding_all rfl, rfl, by with_unfolding_all rfl,
   c4_singular_math_error envSing [] .Gltf .Grid2d 10 2 2 none gEx meshEx
     (by with_unfolding_all rfl) rfl (by with_unfolding_all rfl)⟩

/-- Inserting into the ranked list grows its length by one. -/
lemma insertDesc_length (score : ℕ × ℕ → ℕ) (x : ℕ × ℕ) :
    ∀ l, (insertDesc score x l).length = l.length + 1 := by
  intro l
  induction l with
  | nil => rfl
  | cons y ys ih =>
    simp only [insertDesc]
    split
    · simp
    · simp [ih]

/-- The ranking sort preserves length. -/
lemma sortDesc_length (score : ℕ × ℕ → ℕ) :
    ∀ l, (sortDesc score l).length = l.length := by
  intro l
  induction l with
  | nil => rfl
  | cons x xs ih => simp [sortDesc, insertDesc_length, ih]

/-- The scorer core returns `min depth` (number of nonzero-coverage cells)
results. -/
lemma findTopCore_length (centers : List (List V2p)) (rect : RectF)
    (gs depth : ℕ) (score : ℕ × ℕ → ℕ) :
    (findTopCore centers rect gs depth score).length
      = min depth (eligibleCells centers rect gs).length := by
  simp [findTopCore, sortDesc_length]

/-- C8: a successful `p3d_process_n` run with requested candidate count
`depth` returns at most `depth` result strings, and returns strictly fewer
only when fewer than `depth` grid cells have nonzero coverage — candidates
are never fabricated, under every algorithm variant. -/
theorem c8_candidate_bound :
    ∀ (env : Env) (input : List Nat) (ft : InputFileType) (algo : AlgoType)
      (depth : ℕ) (p1 p2 : Int) (trans : Option (ℕ × ℕ × ℕ × ℕ))
      (centers : List (List V2p)) (rect : RectF) (res : List String),
      p3dCtx env input ft algo p1 p2 trans = .ok (centers, rect) →
      p3d_process_n env input ft algo depth p1 p2 trans = .ok res →
      res.length ≤ depth ∧
      (res.length < depth →
        (eligibleCells centers rect p1.toNat).length < depth) := by
  intro env input ft algo depth p1 p2 trans centers rect res hctx hres
  have hres' : res = dispatchScore algo centers depth p1 p2 rect := by
    simp [p3d_process_n, hctx] at hres
    exact hres.symm
  have hlen : res.length
      = min depth (eligibleCells centers rect p1.toNat).length := by
    cases algo <;>
      simp [hres', dispatchScore, find_top_std, find_top_std_2,
        find_top_std_3, find_top_std_4, findTopCore_length]
  omega

/-- C8, witness: the concrete run over `env0` returns one candidate for
`depth = 10`, within the bound. -/
theorem c8_candidate_bound_witness :
    p3d_process_n env0 [] .Gltf .Grid2d 10 2 2 none = .ok ["0,0"] ∧
    (["0,0"] : List String).length ≤ 10 :=
  ⟨by with_unfolding_all rfl,
   (c8_candidate_bound env0 [] .Gltf .Grid2d 10 2 2 none
      [[⟨.finite 0, .finite 0⟩], [⟨.finite 0, .finite 0⟩]]
      ⟨.finite 0, .finite 1, .finite 0, .finite 1⟩ ["0,0"]
      (by with_unfolding_all rfl) (by with_unfolding_all rfl)).1⟩

/-- Any pipeline result agrees with itself up to message text. -/
lemma resultAgrees_refl : ∀ r, resultAgrees r r := by
  intro r
  cases r <;> simp [resultAgrees]

/-- The GLB primitive loop computes exactly what the glTF primitive loop
computes. -/
lemma loadPrimsGlb_eq (l : List Primitive) :
    ∀ ps is, loadPrimsGlb l ps is = loadPrimsGltf l ps is := by
  induction l with
  | nil => intro ps is; rfl
  | cons p rest ih =>
    intro ps is
    simp only [loadPrimsGlb, loadPrimsGltf]
    split
    · rfl
    · exact ih _ _

/-- The GLB mesh loop computes exactly what the glTF mesh loop computes. -/
lemma loadMeshesGlb_eq (s : Scene) :
    ∀ ps is, loadMeshesGlb s ps is = loadMeshesGltf s ps is := by
  induction s with
  | nil => intro ps is; rfl
  | cons gm rest ih =>
    intro ps is
    simp only [loadMeshesGlb, loadMeshesGltf, loadPrimsGlb_eq]
    split
    · rfl
    · exact ih _ _

/-- C10: for every input and parameter choice, the `Gltf` and `Glb` paths
of `p3d_process_n` perform the same parsing and geometry extraction: on
success they return the same value, and on failure they fail with the same
error shape, differing only in message text. -/
theorem c10_gltf_glb_agree :
    ∀ (env : Env) (input : List Nat) (algo : AlgoType) (depth : ℕ)
      (p1 p2 : Int) (trans : Option (ℕ × ℕ × ℕ × ℕ)),
      resultAgrees (p3d_process_n env input .Gltf algo depth p1 p2 trans)
        (p3d_process_n env input .Glb algo depth p1 p2 trans) := by
  intro env input algo depth p1 p2 trans
  cases hp : env.from_slice input with
  | none =>
    simp [p3d_process_n, p3dCtx, extractGeometry, gltfBranch, glbBranch, hp,
      resultAgrees, shapeOf]
  | some scene =>
    by_cases he : (loadMeshesGltf scene [] []).1.isEmpty
        || (loadMeshesGltf scene [] []).2.isEmpty
    · simp [p3d_process_n, p3dCtx, extractGeometry, gltfBranch, glbBranch,
        hp, loadMeshesGlb_eq, he, resultAgrees, shapeOf]
    · have hEq : p3d_process_n env input .Glb algo depth p1 p2 trans
          = p3d_process_n env input .Gltf algo depth p1 p2 trans := by
        simp [p3d_process_n, p3dCtx, extractGeometry, gltfBranch, glbBranch,
          hp, loadMeshesGlb_eq, he]
      rw [hEq]
      exact resultAgrees_refl _

/-- C6, counterexample: on `sceneMix` the loader returns positions merged
from two primitives, not the geometry of the first primitive that yields
both non-empty positions and non-empty indices as the spec's
selection-based contract would. -/
theorem c6_counterexample :
    loadMeshesGltf sceneMix [] [] = ([pA, pB], [0]) ∧
    selectFirstGeometry sceneMix = some ([pB], [0]) ∧
    ([pA, pB] : List V3) ≠ [pB] := by
  refine ⟨by with_unfolding_all rfl, by with_unfolding_all rfl, ?_⟩
  intro h
  simpa using congrArg List.length h

/-- The glTF primitive loop is the flattened-list accumulation loop. -/
lemma loadPrimsGltf_eq_flat (l : List Primitive) :
    ∀ ps is, loadPrimsGltf l ps is = loadFlat l ps is := by
  induction l with
  | nil => intro ps is; rfl
  | cons p rest ih =>
    intro ps is
    simp only [loadPrimsGltf, loadFlat]
    split
    · rfl
    · exact ih _ _

/-- Splitting the flattened accumulation at a list boundary, provided the
incoming accumulators have not already both become non-empty. -/
lemma loadFlat_append (m : List Primitive) :
    ∀ (r : List Primitive) ps is, ¬(ps ≠ [] ∧ is ≠ []) →
      loadFlat (m ++ r) ps is
        = (if (loadFlat m ps is).1 ≠ [] ∧ (loadFlat m ps is).2 ≠ []
           then loadFlat m ps is
           else loadFlat r (loadFlat m ps is).1 (loadFlat m ps is).2) := by
  induction m with
  | nil =>
    intro r ps is h
    simp only [List.nil_append, loadFlat]
    rw [if_neg h]
  | cons p rest ih =>
    intro r ps is h
    simp only [List.cons_append, loadFlat]
    by_cases hc : ps ++ p.positions ≠ [] ∧ is ++ p.indices ≠ []
    · simp [hc]
    · simp only [hc, if_false]
      exact ih r _ _ hc

/-- The nested mesh/primitive loops of the glTF branch equal the single
accumulation loop over the flattened primitive list. -/
lemma loadMeshesGltf_eq_flat (s : Scene) :
    ∀ ps is, ¬(ps ≠ [] ∧ is ≠ []) →
      loadMeshesGltf s ps is = loadFlat s.flatten ps is := by
  induction s with
  | nil => intro ps is _; rfl
  | cons gm rest ih =>
    intro ps is h
    simp only [loadMeshesGltf, List.flatten_cons, loadPrimsGltf_eq_flat]
    rw [loadFlat_append gm rest.flatten ps is h]
    by_cases hc : (loadFlat gm ps is).1 ≠ [] ∧ (loadFlat gm ps is).2 ≠ []
    · simp [hc]
    · simp only [hc, if_false]
      exact ih _ _ hc

/-- The flattened accumulation either consumes everything (yielding the
full concatenations) or stops with both accumulators non-empty. -/
lemma loadFlat_cases (l : List Primitive) :
    ∀ ps is,
      loadFlat l ps is
          = (ps ++ l.flatMap Primitive.positions, is ++ l.flatMap Primitive.indices)
        ∨ ((loadFlat l ps is).1 ≠ [] ∧ (loadFlat l ps is).2 ≠ []) := by
  induction l with
  | nil => intro ps is; left; simp [loadFlat]
  | cons p rest ih =>
    intro ps is
    simp only [loadFlat]
    by_cases hc : ps ++ p.positions ≠ [] ∧ is ++ p.indices ≠ []
    · right
      rw [if_pos hc]
      exact hc
    · rw [if_neg hc]
      rcases ih (ps ++ p.positions) (is ++ p.indices) with h | h
      · left
        rw [h]
        simp [List.append_assoc]
      · right
        exact h

/-- The accumulators produced by the flattened loop are initial parts of
the full concatenations. -/
lemma loadFlat_sub (l : List Primitive) :
    ∀ ps is,
      ∃ q1 q2,
        (loadFlat l ps is).1 ++ q1 = ps ++ l.flatMap Primitive.positions ∧
        (loadFlat l ps is).2 ++ q2 = is ++ l.flatMap Primitive.indices := by
  induction l with
  | nil => intro ps is; exact ⟨[], [], by simp [loadFlat], by simp [loadFlat]⟩
  | cons p rest ih =>
    intro ps is
    simp only [loadFlat]
    by_cases hc : ps ++ p.positions ≠ [] ∧ is ++ p.indices ≠ []
    · rw [if_pos hc]
      refine ⟨rest.flatMap Primitive.positions, rest.flatMap Primitive.indices, ?_, ?_⟩
      · simp [List.append_assoc]
      · simp [List.append_assoc]
    · rw [if_neg hc]
      obtain ⟨q1, q2, h1, h2⟩ := ih (ps ++ p.positions) (is ++ p.indices)
      refine ⟨q1, q2, ?_, ?_⟩
      · rw [h1]
        simp [List.append_assoc]
      · rw [h2]
        simp [List.append_assoc]

/-- C6, amended: the loader does not select a single mesh/primitive
combination; it accumulates positions and indices across primitives in
mesh-then-primitive order (equivalently, over the flattened primitive
list), stopping once both accumulators are non-empty — so the returned
geometry may merge data from several primitives.  It fails with the
no-geometry error exactly when the scene carries no positions at all or no
indices at all, and on success it returns non-empty initial parts of the
concatenated position and index streams. -/
theorem c6_amended_accumulating :
    ∀ (env : Env) (input : List Nat) (scene : Scene),
      env.from_slice input = some scene →
      loadMeshesGltf scene [] [] = loadFlat scene.flatten [] [] ∧
      (gltfBranch env input = .error (.GltfError noGeomGltfMsg)
        ↔ allPositions scene = [] ∨ allIndices scene = []) ∧
      (∀ ps is, gltfBranch env input = .ok (ps, is) →
        List.IsPrefix ps (allPositions scene) ∧
        List.IsPrefix is (allIndices scene) ∧ ps ≠ [] ∧ is ≠ []) := by
  intro env input scene hp
  have hflat : loadMeshesGltf scene [] [] = loadFlat scene.flatten [] [] :=
    loadMeshesGltf_eq_flat scene [] [] (by simp)
  refine ⟨hflat, ?_, ?_⟩
  · constructor
    · intro herr
      simp only [gltfBranch, hp] at herr
      by_cases he : (loadMeshesGltf scene [] []).1.isEmpty
          || (loadMeshesGltf scene [] []).2.isEmpty
      · rcases loadFlat_cases scene.flatten [] [] with h | h
        · rw [hflat, h] at he
          simpa [allPositions, allIndices, List.isEmpty_iff] using he
        · rw [hflat] at he
          simp [List.isEmpty_iff] at he
          tauto
      · simp [he] at herr
    · intro hempty
      have he : ((loadMeshesGltf scene [] []).1.isEmpty
          || (loadMeshesGltf scene [] []).2.isEmpty) = true := by
        obtain ⟨q1, q2, h1, h2⟩ := loadFlat_sub scene.flatten [] []
        rcases hempty with h | h
        · have : (loadFlat scene.flatten [] []).1 = [] := by
            have := h1
            rw [List.nil_append] at this
            have hz : (loadFlat scene.flatten [] []).1 ++ q1 = [] := by
              rw [this]
              exact h
            exact List.append_eq_nil.mp hz |>.1
          simp [hflat, this]
        · have : (loadFlat scene.flatten [] []).2 = [] := by
            have := h2
            rw [List.nil_append] at this
            have hz : (loadFlat scene.flatten [] []).2 ++ q2 = [] := by
              rw [this]
              exact h
            exact List.append_eq_nil.mp hz |>.1
          simp [hflat, this]
      simp [gltfBranch, hp, he]
  · intro ps is hok
    simp only [gltfBranch, hp] at hok
    by_cases he : (loadMeshesGltf scene [] []).1.isEmpty
        || (loadMeshesGltf scene [] []).2.isEmpty
    · simp [he] at hok
    · simp only [he, if_false] at hok
      have hr : loadMeshesGltf scene [] [] = (ps, is) := Except.ok.inj hok
      rw [hflat] at hr
      obtain ⟨q1, q2, h1, h2⟩ := loadFlat_sub scene.flatten [] []
      rw [hr] at h1 h2
      simp only [List.nil_append] at h1 h2
      have hne : ¬((ps, is).1.isEmpty || (ps, is).2.isEmpty) = true := by
        rw [← hr, ← hflat]
        exact he
      simp [List.isEmpty_iff] at hne
      exact ⟨⟨q1, h1⟩, ⟨q2, h2⟩, hne.1, hne.2⟩

/-- C6, witness for the amended statement: instantiated on the concrete
mixed scene, whose loader run merges two primitives. -/
theorem c6_amended_accumulating_witness :
    loadMeshesGltf sceneMix [] [] = loadFlat sceneMix.flatten [] [] ∧
    (gltfBranch envMix [] = .error (.GltfError noGeomGltfMsg)
      ↔ allPositions sceneMix = [] ∨ allIndices sceneMix = []) ∧
    (∀ ps is, gltfBranch envMix [] = .ok (ps, is) →
      List.IsPrefix ps (allPositions sceneMix) ∧
      List.IsPrefix is (allIndices sceneMix) ∧ ps ≠ [] ∧ is ≠ []) :=
  c6_amended_accumulating envMix [] sceneMix rfl

/-- C9, witness: the concrete run over `env0` with packed bytes
`[0, 0, 0, 7]` corrupts the mesh to all-`nan` positions yet still returns
`Ok`. -/
theorem c9_zero_axis_nan_witness :
    auxAxisArg (0, 0, 0, 7) = ⟨.finite 0, .finite 0, .finite 0⟩ ∧
    normalizeV3 ⟨.finite 0, .finite 0, .finite 0⟩ = ⟨.nan, .nan, .nan⟩ ∧
    (auxApply (some (0, 0, 0, 7)) meshEx).positions
      = meshEx.positions.map (fun _ => (⟨.nan, .nan, .nan⟩ : V3)) ∧
    (∃ r, p3d_process_n env0 [] .Gltf .Grid2d 10 2 2 (some (0, 0, 0, 7))
            = .ok r) := by
  have h := c9_zero_axis_nan 7 env0 [] .Gltf .Grid2d 10 2 2 meshEx gEx meshEx
  have hinv : invert3 (mat3OfPit (env0.principal_inertia_transform meshEx))
      ≠ none := by
    intro hcon
    have hs : (invert3 (mat3OfPit (env0.principal_inertia_transform meshEx))).isSome
        = true := by with_unfolding_all rfl
    rw [hcon] at hs
    simp at hs
  exact ⟨h.1, h.2.1, h.2.2.1,
         h.2.2.2 (by with_unfolding_all rfl) rfl hinv⟩

end P3D
